import Mathlib

/-!
Verification of the Task_Manager repository's scheduling and execution engine.

The JavaScript sources are shallowly embedded: pure computations become Lean
functions, the MySQL `task_queue` table becomes a list of rows threaded through
the repository operations, timestamps become integers (milliseconds since the
epoch, as produced by `Date.now()`), and each `Date.now()` / `new Date()`
reading taken during a run is an explicit parameter of the embedding.  The
injected work unit (the placeholder `_simulateTaskExecution`) and the webhook
delivery outcome are environment parameters, since the engine only observes
their success or failure.
-/

namespace TaskManager

/-- Execution states, urgency levels and the like are kept as the raw strings
the JavaScript code compares against (`'queued'`, `'processing'`, ...). -/
abbrev StateStr := String

/-- A row of the `task_queue` table as the repository reads and writes it.
`payload_data` holds the TEXT column: the `JSON.stringify` image of the payload
(`TaskRepository.createTask` stringifies before the INSERT).  Timestamps are
milliseconds since the epoch; `Option` models SQL NULL. -/
structure TaskRow where
  task_id : String
  task_label : String
  payload_data : String
  urgency_level : String
  execution_state : StateStr
  schedule_pattern : Option String
  is_recurring : Bool
  next_execution_at : Option Int
  execution_attempts : Nat
  execution_duration_ms : Option Int
  failure_reason : Option String
  last_executed_at : Option Int
  completed_at : Option Int
  spawned_at : Int
deriving Repr, DecidableEq

/-- The `task_queue` table. -/
abbrev Store := List TaskRow

/-- A row of the `execution_history` table, as written by
`TaskRepository.logExecution`. -/
structure HistEntry where
  task_id : String
  execution_status : String
  started_at : Int
  finished_at : Int
  duration_ms : Int
  error_message : Option String
deriving Repr, DecidableEq

/-- A row of the `webhook_logs` table (only the delivery outcome matters to the
engine's claims). -/
structure WebhookLogEntry where
  task_id : String
  delivery_success : Bool
deriving Repr, DecidableEq

/-- JavaScript truthiness of an optional string (`undefined`, `null` and the
empty string are falsy). -/
def strOptTruthy : Option String → Bool
  | none => false
  | some s => s ≠ ""

/-- The `additionalData` object accepted by `TaskRepository.updateTaskState`.
A `some` field models a property present on the JavaScript object.  The callers
in `TaskService` pass at most these five properties; in particular
`_scheduleNextExecution` passes `next_execution_at`. -/
structure UpdateFields where
  execution_attempts : Option Nat := none
  execution_duration_ms : Option Int := none
  failure_reason : Option String := none
  last_executed_at : Option Int := none
  next_execution_at : Option (Option Int) := none
deriving Repr, DecidableEq

/-- The SET-clause of `TaskRepository.updateTaskState` applied to one row.
Field by field this mirrors the JavaScript:
`execution_attempts` and `execution_duration_ms` are applied when present
(`!== undefined` checks); `failure_reason` is applied only when truthy, so an
empty message is silently skipped; `completed_at = NOW()` exactly when the new
state is `'completed'`; `last_executed_at` is applied when truthy (a `Date`
object is always truthy).  The function never reads
`additionalData.next_execution_at`: the source has no branch for that column,
which is why the field below is absent from the update. -/
def applyUpdate (r : TaskRow) (newState : StateStr) (u : UpdateFields) (now : Int) : TaskRow :=
  { r with
    execution_state := newState
    execution_attempts :=
      match u.execution_attempts with
      | some a => a
      | none => r.execution_attempts
    execution_duration_ms :=
      match u.execution_duration_ms with
      | some d => some d
      | none => r.execution_duration_ms
    failure_reason :=
      match u.failure_reason with
      | some msg => if msg = "" then r.failure_reason else some msg
      | none => r.failure_reason
    completed_at := if newState = "completed" then some now else r.completed_at
    last_executed_at :=
      match u.last_executed_at with
      | some t => some t
      | none => r.last_executed_at }

/-- The UPDATE of `TaskRepository.updateTaskState` over the whole table
(`WHERE task_id = ?`). -/
def updateWhere (st : Store) (taskId : String) (newState : StateStr) (u : UpdateFields)
    (now : Int) : Store :=
  st.map fun r => if r.task_id = taskId then applyUpdate r newState u now else r

/-- The raw row returned by `SELECT * FROM task_queue WHERE task_id = ?`. -/
def selectTaskRow (st : Store) (taskId : String) : Option TaskRow :=
  st.find? fun r => r.task_id = taskId

/-! ## JSON values

`TaskRepository.createTask` stores `JSON.stringify(taskData.payload_data)` in
the TEXT column `payload_data`, and `_formatTaskData` applies `JSON.parse` to
string payload columns when reading rows back.  The platform JSON codec is
modelled below: values are null, booleans, numbers (restricted to integers —
the engine never inspects payloads, and modelling IEEE doubles is out of
scope), strings, arrays and objects; `stringifyVal` mirrors `JSON.stringify`
(two-character escapes for quote, backslash and the named control characters,
`\u00XX` for the remaining control characters, everything else literal, no
inserted whitespace) and `parseValue` mirrors `JSON.parse` on that grammar
(whitespace-tolerant, all standard string escapes). -/

mutual

inductive Json where
  | null : Json
  | bool (b : Bool) : Json
  | num (n : Int) : Json
  | str (s : List Char) : Json
  | arr (items : JsonItems) : Json
  | obj (members : JsonMembers) : Json
deriving Repr, DecidableEq

inductive JsonItems where
  | nil : JsonItems
  | cons (hd : Json) (tl : JsonItems) : JsonItems
deriving Repr, DecidableEq

inductive JsonMembers where
  | nil : JsonMembers
  | cons (key : List Char) (val : Json) (tl : JsonMembers) : JsonMembers
deriving Repr, DecidableEq

end

/-- JavaScript truthiness of a JSON value (`null`, `false`, `0` and `""` are
falsy; every array and object is truthy). -/
def Json.truthy : Json → Bool
  | .null => false
  | .bool b => b
  | .num n => n ≠ 0
  | .str s => s ≠ []
  | .arr _ => true
  | .obj _ => true

/-- The decimal digit character for `d < 10`. -/
def digitChar (d : Nat) : Char := Char.ofNat (48 + d)

/-- Decimal digits of `n`, least significant first (`[]` for `0`). -/
def natToDigitsRev : Nat → List Char
  | 0 => []
  | n + 1 => digitChar ((n + 1) % 10) :: natToDigitsRev ((n + 1) / 10)
decreasing_by exact Nat.div_lt_self (Nat.succ_pos n) (by norm_num)

/-- Decimal notation of a natural number. -/
def natToChars (n : Nat) : List Char :=
  if n = 0 then ['0'] else (natToDigitsRev n).reverse

/-- Decimal notation of an integer, as `JSON.stringify` prints an integral
number. -/
def intToChars (i : Int) : List Char :=
  if i < 0 then '-' :: natToChars i.natAbs else natToChars i.natAbs

/-- Lower-case hexadecimal digit character for `d < 16`. -/
def hexDigitChar (d : Nat) : Char :=
  if d < 10 then Char.ofNat (48 + d) else Char.ofNat (87 + d)

/-- Four-digit lower-case hexadecimal notation, as in a `\u00XX` escape. -/
def hex4 (n : Nat) : List Char :=
  [hexDigitChar (n / 4096 % 16), hexDigitChar (n / 256 % 16),
   hexDigitChar (n / 16 % 16), hexDigitChar (n % 16)]

/-- How `JSON.stringify` renders one character inside a string literal. -/
def escapeChar (c : Char) : List Char :=
  if c = '"' then ['\\', '"']
  else if c = '\\' then ['\\', '\\']
  else if c = '\x08' then ['\\', 'b']
  else if c = '\x09' then ['\\', 't']
  else if c = '\x0a' then ['\\', 'n']
  else if c = '\x0c' then ['\\', 'f']
  else if c = '\x0d' then ['\\', 'r']
  else if c.toNat < 32 then '\\' :: 'u' :: hex4 c.toNat
  else [c]

/-- Applies `escapeChar` across a string body. -/
def escapeChars : List Char → List Char
  | [] => []
  | c :: rest => escapeChar c ++ escapeChars rest

/-- A JSON string literal: quote, escaped body, quote. -/
def stringifyString (s : List Char) : List Char :=
  '"' :: (escapeChars s ++ ['"'])

mutual

/-- Model of `JSON.stringify` on the value grammar (compact output, as the platform
produces without an indent argument). -/
def stringifyVal : Json → List Char
  | .null => 'n' :: 'u' :: 'l' :: 'l' :: []
  | .bool true => 't' :: 'r' :: 'u' :: 'e' :: []
  | .bool false => 'f' :: 'a' :: 'l' :: 's' :: 'e' :: []
  | .num n => intToChars n
  | .str s => stringifyString s
  | .arr xs => '[' :: (stringifyItems xs ++ [']'])
  | .obj ms => '{' :: (stringifyMembers ms ++ ['}'])

/-- Comma-separated array elements. -/
def stringifyItems : JsonItems → List Char
  | .nil => []
  | .cons v .nil => stringifyVal v
  | .cons v tl => stringifyVal v ++ (',' :: stringifyItems tl)

/-- Comma-separated object members, each `"key":value`. -/
def stringifyMembers : JsonMembers → List Char
  | .nil => []
  | .cons k v .nil => stringifyString k ++ (':' :: stringifyVal v)
  | .cons k v tl => stringifyString k ++ (':' :: (stringifyVal v ++ (',' :: stringifyMembers tl)))

end

/-- JSON whitespace. -/
def isWsChar (c : Char) : Bool :=
  c = ' ' ∨ c = '\x09' ∨ c = '\x0a' ∨ c = '\x0d'

/-- Skip leading JSON whitespace. -/
def skipWs (cs : List Char) : List Char := cs.dropWhile isWsChar

/-- Value of a hexadecimal digit character. -/
def hexVal (c : Char) : Option Nat :=
  if '0' ≤ c ∧ c ≤ '9' then some (c.toNat - 48)
  else if 'a' ≤ c ∧ c ≤ 'f' then some (c.toNat - 87)
  else if 'A' ≤ c ∧ c ≤ 'F' then some (c.toNat - 55)
  else none

/-- The character denoted by a single-character escape `\c`. -/
def unescapeChar (c : Char) : Option Char :=
  if c = '"' then some '"'
  else if c = '\\' then some '\\'
  else if c = '/' then some '/'
  else if c = 'b' then some '\x08'
  else if c = 't' then some '\x09'
  else if c = 'n' then some '\x0a'
  else if c = 'f' then some '\x0c'
  else if c = 'r' then some '\x0d'
  else none

/-- Parse the body of a string literal after its opening quote, returning the
decoded characters and the input after the closing quote.  Raw control
characters are rejected, as `JSON.parse` rejects them. -/
def parseStringBody : List Char → Option (List Char × List Char)
  | [] => none
  | c :: rest =>
    if c = '"' then some ([], rest)
    else if c = '\\' then
      match rest with
      | [] => none
      | e :: rest2 =>
        if e = 'u' then
          match rest2 with
          | h1 :: h2 :: h3 :: h4 :: rest3 =>
            match hexVal h1, hexVal h2, hexVal h3, hexVal h4 with
            | some a, some b, some x, some d =>
              (parseStringBody rest3).map fun p =>
                (Char.ofNat (((a * 16 + b) * 16 + x) * 16 + d) :: p.1, p.2)
            | _, _, _, _ => none
          | _ => none
        else
          match unescapeChar e with
          | some d => (parseStringBody rest2).map fun p => (d :: p.1, p.2)
          | none => none
    else if c.toNat < 32 then none
    else (parseStringBody rest).map fun p => (c :: p.1, p.2)

/-- Numeric value of a digit string, most significant digit last in the
recursion. -/
def valRev : List Char → Nat
  | [] => 0
  | c :: rest => (c.toNat - 48) + 10 * valRev rest

/-- Numeric value of a digit string as written. -/
def digitsVal (ds : List Char) : Nat := valRev ds.reverse

/-- Parse a maximal run of decimal digits. -/
def parseNatChars (cs : List Char) : Option (Nat × List Char) :=
  let ds := cs.takeWhile Char.isDigit
  if ds.isEmpty then none else some (digitsVal ds, cs.drop ds.length)

mutual

/-- Model of `JSON.parse` on the integer-number grammar, fuel-indexed: each recursive
call spends one unit, so any fuel bound above the value's size suffices. -/
def parseValue : Nat → List Char → Option (Json × List Char)
  | 0, _ => none
  | fuel + 1, cs =>
    match skipWs cs with
    | [] => none
    | c :: rest =>
      if c = 'n' then
        match rest with
        | 'u' :: 'l' :: 'l' :: r => some (.null, r)
        | _ => none
      else if c = 't' then
        match rest with
        | 'r' :: 'u' :: 'e' :: r => some (.bool true, r)
        | _ => none
      else if c = 'f' then
        match rest with
        | 'a' :: 'l' :: 's' :: 'e' :: r => some (.bool false, r)
        | _ => none
      else if c = '"' then (parseStringBody rest).map fun p => (.str p.1, p.2)
      else if c = '[' then
        if (skipWs rest).head? = some ']' then some (.arr .nil, (skipWs rest).tail)
        else (parseItems fuel (skipWs rest)).map fun p => (.arr p.1, p.2)
      else if c = '{' then
        if (skipWs rest).head? = some '}' then some (.obj .nil, (skipWs rest).tail)
        else (parseMembers fuel (skipWs rest)).map fun p => (.obj p.1, p.2)
      else if c = '-' then (parseNatChars rest).map fun p => (.num (-(p.1 : Int)), p.2)
      else if c.isDigit then (parseNatChars (c :: rest)).map fun p => (.num (p.1 : Int), p.2)
      else none

/-- Elements of a non-empty array body, consuming the closing bracket. -/
def parseItems : Nat → List Char → Option (JsonItems × List Char)
  | 0, _ => none
  | fuel + 1, cs =>
    match parseValue fuel cs with
    | none => none
    | some (v, rest) =>
      match skipWs rest with
      | ',' :: r2 => (parseItems fuel r2).map fun p => (.cons v p.1, p.2)
      | ']' :: r2 => some (.cons v .nil, r2)
      | _ => none

/-- Members of a non-empty object body, consuming the closing brace. -/
def parseMembers : Nat → List Char → Option (JsonMembers × List Char)
  | 0, _ => none
  | fuel + 1, cs =>
    match skipWs cs with
    | '"' :: r1 =>
      match parseStringBody r1 with
      | none => none
      | some (k, r2) =>
        match skipWs r2 with
        | ':' :: r3 =>
          match parseValue fuel r3 with
          | none => none
          | some (v, r4) =>
            match skipWs r4 with
            | ',' :: r5 => (parseMembers fuel r5).map fun p => (.cons k v p.1, p.2)
            | '}' :: r5 => some (.cons k v .nil, r5)
            | _ => none
        | _ => none
    | _ => none

end

mutual

/-- Fuel sufficient to parse a value back: one unit per grammar node, defined
to mirror the fuel discipline of `parseValue`. -/
def jfuel : Json → Nat
  | .null => 1
  | .bool _ => 1
  | .num _ => 1
  | .str _ => 1
  | .arr xs => jfuelItems xs + 1
  | .obj ms => jfuelMembers ms + 1

/-- Fuel bound for an array body. -/
def jfuelItems : JsonItems → Nat
  | .nil => 1
  | .cons v tl => jfuel v + jfuelItems tl + 1

/-- Fuel bound for an object body. -/
def jfuelMembers : JsonMembers → Nat
  | .nil => 1
  | .cons _ v tl => jfuel v + jfuelMembers tl + 1

end

/-- The `JSON.stringify` call producing the stored TEXT value. -/
def jsonStringify (v : Json) : String := String.mk (stringifyVal v)

/-- Model of `JSON.parse` of a whole string: parse one value and require only
whitespace to remain. -/
def jsonParse (s : String) : Option Json :=
  match parseValue (2 * s.length + 4) s.data with
  | some (v, rest) => if skipWs rest = [] then some v else none
  | none => none


/-! ## Repository layer (`TaskRepository`, src/unnamed/part_000) -/

/-- A task as `_formatTaskData` returns it: the row with the `payload_data`
TEXT column parsed as JSON (`none` models a `JSON.parse` throw on malformed
text) and `is_recurring` coerced with `Boolean(...)`. -/
structure Task where
  task_id : String
  task_label : String
  payload_data : Option Json
  urgency_level : String
  execution_state : StateStr
  schedule_pattern : Option String
  is_recurring : Bool
  next_execution_at : Option Int
  execution_attempts : Nat
  execution_duration_ms : Option Int
  failure_reason : Option String
  last_executed_at : Option Int
  completed_at : Option Int
  spawned_at : Int
deriving Repr, DecidableEq

/-- Mirror of `TaskRepository._formatTaskData`: parse string payloads, coerce
`is_recurring`. -/
def formatTaskData (r : TaskRow) : Task :=
  { task_id := r.task_id
    task_label := r.task_label
    payload_data := jsonParse r.payload_data
    urgency_level := r.urgency_level
    execution_state := r.execution_state
    schedule_pattern := r.schedule_pattern
    is_recurring := r.is_recurring
    next_execution_at := r.next_execution_at
    execution_attempts := r.execution_attempts
    execution_duration_ms := r.execution_duration_ms
    failure_reason := r.failure_reason
    last_executed_at := r.last_executed_at
    completed_at := r.completed_at
    spawned_at := r.spawned_at }

/-- Mirror of `TaskRepository.findTaskById`: SELECT by id, formatted, `none` for a miss. -/
def TaskRepository.findTaskById (st : Store) (taskId : String) : Option Task :=
  (selectTaskRow st taskId).map formatTaskData

/-- The column values `TaskRepository.createTask` binds in its INSERT. -/
structure NewTaskData where
  task_id : String
  task_label : String
  payload_data : Json
  urgency_level : String
  schedule_pattern : Option String
  is_recurring : Bool
  next_execution_at : Option Int
deriving Repr, DecidableEq

/-- Modelled from the spec: the `task_queue` DDL (schema file) is not among the
provided sources, so the defaults of the columns the INSERT of
`TaskRepository.createTask` does not set are taken from the spec — a task is
created with state `queued` (§3 lifecycle), attempts start at zero, and
outcome fields are NULL until a run populates them.  The columns the INSERT
does set are bound exactly as in the source, with the payload stored as
`JSON.stringify(taskData.payload_data)`. -/
def insertRow (d : NewTaskData) (now : Int) : TaskRow :=
  { task_id := d.task_id
    task_label := d.task_label
    payload_data := jsonStringify d.payload_data
    urgency_level := d.urgency_level
    execution_state := "queued"
    schedule_pattern := d.schedule_pattern
    is_recurring := d.is_recurring
    next_execution_at := d.next_execution_at
    execution_attempts := 0
    execution_duration_ms := none
    failure_reason := none
    last_executed_at := none
    completed_at := none
    spawned_at := now }

/-- Mirror of `TaskRepository.createTask`: INSERT, then read the task back by id. -/
def TaskRepository.createTask (st : Store) (d : NewTaskData) (now : Int) : Store × Option Task :=
  let st2 := st ++ [insertRow d now]
  (st2, TaskRepository.findTaskById st2 d.task_id)

/-- Mirror of `TaskRepository.updateTaskState`: the partial UPDATE, then read back. -/
def TaskRepository.updateTaskState (st : Store) (taskId : String) (newState : StateStr)
    (u : UpdateFields) (now : Int) : Store × Option Task :=
  let st2 := updateWhere st taskId newState u now
  (st2, TaskRepository.findTaskById st2 taskId)

/-- The filter object accepted by `TaskRepository.findAllTasks`. -/
structure TaskFilters where
  execution_state : Option String := none
  urgency_level : Option String := none
  is_recurring : Option Bool := none
  limit : Option Nat := none
deriving Repr, DecidableEq

/-- The WHERE clause of `findAllTasks` on one row (string filters join the
query only when truthy, `is_recurring` when not undefined). -/
def rowMatchesFilters (f : TaskFilters) (r : TaskRow) : Bool :=
  (if strOptTruthy f.execution_state then r.execution_state = f.execution_state.getD "" else true) &&
  (if strOptTruthy f.urgency_level then r.urgency_level = f.urgency_level.getD "" else true) &&
  (match f.is_recurring with
   | some b => r.is_recurring = b
   | none => true)

/-- Mirror of `TaskRepository.findAllTasks`: filter, ORDER BY `spawned_at` DESC, LIMIT
when the limit is truthy, format. -/
def TaskRepository.findAllTasks (st : Store) (f : TaskFilters) : List Task :=
  let rows := st.filter (rowMatchesFilters f)
  let sorted := rows.mergeSort fun a b => decide (b.spawned_at ≤ a.spawned_at)
  let limited := match f.limit with
    | some l => if l = 0 then sorted else sorted.take l
    | none => sorted
  limited.map formatTaskData

/-- Mirror of `TaskRepository.logExecution`: append a row to `execution_history` with
`duration = endTime - startTime`. -/
def TaskRepository.logExecution (hist : List HistEntry) (taskId status : String)
    (startTime endTime : Int) (errorMessage : Option String) : List HistEntry :=
  hist ++ [{ task_id := taskId
             execution_status := status
             started_at := startTime
             finished_at := endTime
             duration_ms := endTime - startTime
             error_message := errorMessage }]

/-! ## Error classes (`customErrors`, src/unnamed/part_001) -/

/-- The error classes the engine raises, with the constructor arguments that
matter to the claims. -/
inductive SvcError where
  | taskNotFound (taskId : String)
  | invalidTaskState (currentState attemptedAction : String)
  | validationError (field message : String)
  | taskExecutionError (taskId reason : String)
  | concurrencyLimitError (currentCount limit : Nat)
deriving Repr, DecidableEq

deriving instance DecidableEq for Except

/-- The `statusCode` each error class passes to `BaseApplicationError`. -/
def SvcError.statusCode : SvcError → Nat
  | .taskNotFound _ => 404
  | .invalidTaskState _ _ => 400
  | .validationError _ _ => 400
  | .taskExecutionError _ _ => 500
  | .concurrencyLimitError _ _ => 429

/-! ## Webhook delivery -/

/-- The result object of a webhook delivery. -/
structure WebhookResult where
  success : Bool
deriving Repr, DecidableEq

/-- Modelled from the spec: the WebhookService implementation (`deliverWebhook`,
invoked at step 5 of `TaskService.executeTask` and required from
`./webhookServices`) is not among the provided sources — only its callers are.
Per the spec's NotificationSink contract, `deliver(task) -> {success,
statusCode?, body?}` and "failures are logged by the caller, never thrown":
delivery records a `webhook_logs` entry for the task and reports the outcome in
its result instead of raising.  The outcome itself is an environment
parameter. -/
def WebhookService.deliverWebhook (outcome : Bool) (wlog : List WebhookLogEntry)
    (taskId : String) : WebhookResult × List WebhookLogEntry :=
  ({ success := outcome }, wlog ++ [{ task_id := taskId, delivery_success := outcome }])

/-! ## Service layer (`TaskService`, src/backend/core/services/webhookServices.js) -/

/-- JavaScript truthiness of an optional JSON value. -/
def jsonOptTruthy : Option Json → Bool
  | none => false
  | some v => v.truthy

/-- The characters `parseInt` skips before the number. -/
def jsWsChar (c : Char) : Bool :=
  c = ' ' ∨ c = '\x09' ∨ c = '\x0a' ∨ c = '\x0d' ∨ c = '\x0b' ∨ c = '\x0c'

/-- Split at every occurrence of a separator character, keeping empty pieces —
the behaviour of both `String.prototype.split(' ')` and the SQL-free string
work in this codebase.  (This is a structurally recursive model of the
platform split so that proofs can evaluate it.) -/
def splitChar (sep : Char) : List Char → List (List Char)
  | [] => [[]]
  | c :: rest =>
    match splitChar sep rest with
    | [] => [[]]
    | piece :: pieces => if c = sep then [] :: (piece :: pieces) else (c :: piece) :: pieces

/-- The call `s.split(' ')` as a list of strings. -/
def jsSplitSpace (s : String) : List String :=
  (splitChar ' ' s.data).map String.mk

/-- The call `s.trim()`: strip whitespace from both ends. -/
def jsTrim (s : String) : String :=
  String.mk (((s.data.dropWhile jsWsChar).reverse.dropWhile jsWsChar).reverse)

/-- The call `s.toLowerCase()` on the basic latin range, character by character. -/
def jsToLower (s : String) : String := String.mk (s.data.map Char.toLower)

/-- The test `cronPattern.startsWith('*\/')`. -/
def startsWithStarSlash (s : String) : Bool :=
  match s.data with
  | '*' :: '/' :: _ => true
  | _ => false

/-- JavaScript `parseInt(s)` in base 10: skip whitespace, optional sign,
maximal digit prefix; `none` models `NaN`. -/
def jsParseInt (s : String) : Option Int :=
  let cs := s.data.dropWhile jsWsChar
  let signAndRest : Bool × List Char :=
    match cs with
    | '-' :: r => (true, r)
    | '+' :: r => (false, r)
    | _ => (false, cs)
  let ds := signAndRest.2.takeWhile Char.isDigit
  if ds.isEmpty then none
  else some (if signAndRest.1 then -(digitsVal ds : Int) else (digitsVal ds : Int))

/-- The call `first.replace('*\/', '')` on the first schedule field: drop the first
occurrence of the two-character sequence. -/
def removeFirstStarSlash : List Char → List Char
  | [] => []
  | '*' :: '/' :: rest => rest
  | c :: rest => c :: removeFirstStarSlash rest

/-- Mirror of `TaskService._isValidCronPattern`: five space-separated parts. -/
def TaskService.isValidCronPattern (pattern : String) : Bool :=
  (jsSplitSpace (jsTrim pattern)).length = 5

/-- Mirror of `TaskService._calculateNextExecution`: for a `*\/n ...` pattern, now plus
`n` minutes; otherwise now plus one hour.  Instants are milliseconds; `none`
models the Invalid Date produced when `parseInt` of the repeat field is NaN. -/
def TaskService.calculateNextExecution (cronPattern : String) (now : Int) : Option Int :=
  if startsWithStarSlash cronPattern then
    match jsParseInt (String.mk (removeFirstStarSlash
        (((jsSplitSpace cronPattern).headD "").data))) with
    | some m => some (now + m * 60000)
    | none => none
  else
    some (now + 3600000)

/-- Mirror of `TaskService._scheduleNextExecution`: recompute the next instant and ask
the store to set state `queued` together with `next_execution_at`. -/
def TaskService.scheduleNextExecution (st : Store) (taskId : String) (cronPattern : String)
    (now : Int) : Store × Option Task :=
  TaskRepository.updateTaskState st taskId "queued"
    { next_execution_at := some (TaskService.calculateNextExecution cronPattern now) } now

/-- The request body for task creation. -/
structure TaskPayload where
  taskName : Option String := none
  payload : Option Json := none
  priority : Option String := none
  schedulePattern : Option String := none
deriving Repr, DecidableEq

/-- Mirror of `TaskService._validateTaskPayload`: non-empty trimmed name, truthy payload,
priority in the allowed set, and a five-part schedule pattern when one is
given.  There is no length bound on the name here. -/
def TaskService.validateTaskPayload (p : TaskPayload) : Except SvcError Unit :=
  if ¬ strOptTruthy p.taskName ∨ jsTrim (p.taskName.getD "") = "" then
    .error (.validationError "taskName" "Task name is required")
  else if ¬ jsonOptTruthy p.payload then
    .error (.validationError "payload" "Payload data is required")
  else if ¬ ((p.priority.map jsToLower) ∈ [some "low", some "medium", some "high"]) then
    .error (.validationError "priority" "Must be one of: low, medium, high")
  else if strOptTruthy p.schedulePattern ∧
      ¬ TaskService.isValidCronPattern (p.schedulePattern.getD "") then
    .error (.validationError "schedulePattern" "Invalid cron pattern")
  else
    .ok ()

/-- Mirror of `TaskService.createTask`: validate, build the column values (recurring and
`next_execution_at` piggyback on a truthy schedule pattern), insert. `newId`
stands for the generated `uuidv4()`. -/
def TaskService.createTask (p : TaskPayload) (newId : String) (now : Int) (st : Store) :
    Except SvcError (Store × Option Task) :=
  match TaskService.validateTaskPayload p with
  | .error e => .error e
  | .ok _ =>
    let d : NewTaskData :=
      { task_id := newId
        task_label := p.taskName.getD ""
        payload_data := p.payload.getD .null
        urgency_level := jsToLower (p.priority.getD "")
        schedule_pattern := if strOptTruthy p.schedulePattern then p.schedulePattern else none
        is_recurring := strOptTruthy p.schedulePattern
        next_execution_at :=
          if strOptTruthy p.schedulePattern then
            TaskService.calculateNextExecution (p.schedulePattern.getD "") now
          else none }
    .ok (TaskRepository.createTask st d now)

/-- The clock readings and injected outcomes one run of `executeTask`
observes. -/
structure ExecEnv where
  startTime : Int
  markTime : Int
  endTime : Int
  nextCalcTime : Int
  workResult : Option String
  webhookOutcome : Bool
deriving Repr, DecidableEq

/-- The storage the engine mutates: the task table, the execution history and
the webhook log. -/
structure EngineState where
  store : Store
  history : List HistEntry
  webhookLog : List WebhookLogEntry
deriving Repr, DecidableEq

/-- Mirror of `TaskService.executeTask`, the engine's run function.  The lookup and the
single-flight guard mutate nothing; then: mark `processing` with incremented
attempts and `last_executed_at`; run the injected work unit
(`_simulateTaskExecution` is a placeholder whose outcome `env.workResult`
supplies: `none` is success, `some msg` a raised `Error(msg)`).  On success:
mark `completed` with the duration, append a success history entry, deliver the
webhook (absorbing its outcome), and, when the task read at the start is
recurring with a truthy pattern, requeue via `_scheduleNextExecution`; the
caller receives the task as read back by the `completed` update.  On failure:
append a failure history entry, mark `failed` with `failure_reason` and
duration, and re-raise as `TaskExecutionError`. -/
def TaskService.executeTask (env : ExecEnv) (s : EngineState) (taskId : String) :
    Except SvcError (Option Task) × EngineState :=
  match TaskRepository.findTaskById s.store taskId with
  | none => (.error (.taskNotFound taskId), s)
  | some task =>
    if task.execution_state = "processing" then
      (.error (.invalidTaskState task.execution_state "execute"), s)
    else
      let st1 := (TaskRepository.updateTaskState s.store taskId "processing"
        { execution_attempts := some (task.execution_attempts + 1)
          last_executed_at := some env.markTime } env.markTime).1
      match env.workResult with
      | some msg =>
        let hist1 := TaskRepository.logExecution s.history taskId "failure"
          env.startTime env.endTime (some msg)
        let st2 := (TaskRepository.updateTaskState st1 taskId "failed"
          { failure_reason := some msg
            execution_duration_ms := some (env.endTime - env.startTime) } env.endTime).1
        (.error (.taskExecutionError taskId msg),
         { store := st2, history := hist1, webhookLog := s.webhookLog })
      | none =>
        let upd := TaskRepository.updateTaskState st1 taskId "completed"
          { execution_duration_ms := some (env.endTime - env.startTime) } env.endTime
        let hist1 := TaskRepository.logExecution s.history taskId "success"
          env.startTime env.endTime none
        let wlog1 := (WebhookService.deliverWebhook env.webhookOutcome s.webhookLog taskId).2
        let st3 :=
          if task.is_recurring && strOptTruthy task.schedule_pattern then
            (TaskService.scheduleNextExecution upd.1 taskId (task.schedule_pattern.getD "")
              env.nextCalcTime).1
          else upd.1
        (.ok upd.2, { store := st3, history := hist1, webhookLog := wlog1 })

/-! ## Validation middleware (`RequestValidator`, src/backend/middleware/middleware.js)

Exported by the middleware module but mounted on no route in
src/backend/routes/taskRoutes.js. -/

/-- One numeric alternative of the route-validator's cron regex: one or two
decimal digits, no leading zero on two digits, value within the field's
range (this is exactly the language of alternations like
`[0-9]|1[0-9]|2[0-3]`). -/
def cronNumOk (minv maxv : Nat) (cs : List Char) : Bool :=
  match cs with
  | [c] => c.isDigit && minv ≤ (c.toNat - 48) && (c.toNat - 48) ≤ maxv
  | [c1, c2] =>
    c1.isDigit && c2.isDigit && c1 ≠ '0' &&
      minv ≤ ((c1.toNat - 48) * 10 + (c2.toNat - 48)) &&
      ((c1.toNat - 48) * 10 + (c2.toNat - 48)) ≤ maxv
  | _ => false

/-- One field of the route-validator's cron regex: `*`, a number, or `*\/` and
a number. -/
def cronFieldOk (minv maxv : Nat) (cs : List Char) : Bool :=
  match cs with
  | ['*'] => true
  | '*' :: '/' :: rest => cronNumOk minv maxv rest
  | _ => cronNumOk minv maxv cs

/-- The anchored five-field cron regex of
`RequestValidator.validateCreateTaskRequest`. -/
def cronRegexOk (pattern : String) : Bool :=
  match jsSplitSpace pattern with
  | [f1, f2, f3, f4, f5] =>
    cronFieldOk 0 59 f1.data && cronFieldOk 0 23 f2.data && cronFieldOk 1 31 f3.data &&
      cronFieldOk 1 12 f4.data && cronFieldOk 0 6 f5.data
  | _ => false

/-- The test `typeof x === 'object'` for a JSON value (objects, arrays and null). -/
def jsTypeofObject : Json → Bool
  | .obj _ => true
  | .arr _ => true
  | .null => true
  | _ => false

/-- Mirror of `RequestValidator.validateCreateTaskRequest`: the middleware's checks in
source order — non-empty name, name of at most 255 characters, payload present
and of object type, priority in the allowed set, schedule pattern matching the
cron regex when given. -/
def RequestValidator.validateCreateTaskRequest (p : TaskPayload) : Except SvcError Unit :=
  if ¬ strOptTruthy p.taskName ∨ jsTrim (p.taskName.getD "") = "" then
    .error (.validationError "taskName" "Must be a non-empty string")
  else if (p.taskName.getD "").length > 255 then
    .error (.validationError "taskName" "Must be 255 characters or less")
  else if ¬ jsonOptTruthy p.payload then
    .error (.validationError "payload" "Payload is required")
  else if ¬ jsTypeofObject (p.payload.getD .null) then
    .error (.validationError "payload" "Payload must be a JSON object")
  else if ¬ ((p.priority.map jsToLower) ∈ [some "low", some "medium", some "high"]) then
    .error (.validationError "priority" "Must be one of: low, medium, high")
  else if strOptTruthy p.schedulePattern ∧ ¬ cronRegexOk (p.schedulePattern.getD "") then
    .error (.validationError "schedulePattern"
      "Invalid cron pattern (format: minute hour day month weekday)")
  else
    .ok ()

/-! ## Scheduler (`SchedulerService`, src/unnamed/part_002)

The service is a singleton on the Node event loop: code between two `await`
points runs atomically, and the interleaving of those segments across
concurrent calls is arbitrary.  The embedding is a labelled transition system
whose labels are exactly those atomic segments. -/

/-- The mutable fields of the SchedulerService singleton, plus two model
fields: `pendingManual` holds the manual calls suspended at the awaited
`taskRepository.findTaskById(taskId)` — after `manualExecuteTask`'s capacity
check but before the `activeTasksCount++` inside `_executeTaskAsync` — and
`started` records each `_executeTaskAsync` invocation in order, which is the
order executions are admitted. -/
structure SchedState where
  activeTasksCount : Nat
  maxConcurrentTasks : Nat
  taskQueue : List String
  pendingManual : List String
  started : List String
deriving Repr, DecidableEq

/-- The atomic segments of the scheduler:
`tickSubmit` is one iteration of the queueing loop in
`_checkAndExecutePendingTasks` (queue when at the limit, else start);
`manualCheck` is `manualExecuteTask` up to its awaited store lookup (at
capacity it throws `ConcurrencyLimitError` without mutating anything);
`manualResume` is the continuation after the lookup resolves —
`_executeTaskAsync` increments the count with no further capacity check;
`finishTask` is the `finally` block of a running `_executeTaskAsync`
(decrement, then shift the queue head into a fresh execution);
`drainOne` is one iteration of the `while` loop of `_processTaskQueue`. -/
inductive SchedLabel where
  | tickSubmit (taskId : String)
  | manualCheck (taskId : String)
  | manualResume
  | finishTask
  | drainOne
deriving Repr, DecidableEq

/-- The transition function of the scheduler's atomic segments. -/
def schedStep (l : SchedLabel) (s : SchedState) : SchedState :=
  match l with
  | .tickSubmit taskId =>
    if s.activeTasksCount ≥ s.maxConcurrentTasks then
      { s with taskQueue := s.taskQueue ++ [taskId] }
    else
      { s with activeTasksCount := s.activeTasksCount + 1, started := s.started ++ [taskId] }
  | .manualCheck taskId =>
    if s.activeTasksCount ≥ s.maxConcurrentTasks then s
    else { s with pendingManual := s.pendingManual ++ [taskId] }
  | .manualResume =>
    match s.pendingManual with
    | [] => s
    | taskId :: rest =>
      { s with
        pendingManual := rest
        activeTasksCount := s.activeTasksCount + 1
        started := s.started ++ [taskId] }
  | .finishTask =>
    if s.activeTasksCount = 0 then s
    else
      let s1 := { s with activeTasksCount := s.activeTasksCount - 1 }
      match s1.taskQueue with
      | [] => s1
      | taskId :: rest =>
        { s1 with
          taskQueue := rest
          activeTasksCount := s1.activeTasksCount + 1
          started := s1.started ++ [taskId] }
  | .drainOne =>
    if s.activeTasksCount < s.maxConcurrentTasks then
      match s.taskQueue with
      | [] => s
      | taskId :: rest =>
        { s with
          taskQueue := rest
          activeTasksCount := s.activeTasksCount + 1
          started := s.started ++ [taskId] }
    else s

/-- Run a sequence of atomic segments. -/
def schedRun (ls : List SchedLabel) (s : SchedState) : SchedState :=
  ls.foldl (fun acc l => schedStep l acc) s

/-! ## HTTP wiring (taskRoutes.js, taskController.js, server.js) -/

/-- Route `POST /run-job/:id` as wired: the route handler calls
`TaskController.executeTask`, which calls `taskService.executeTask(req.params.id)`
directly.  Neither the route, the controller nor the service imports the
SchedulerService singleton, so its gate — passed here as `gate` — is consulted
nowhere on this path.  The global error handler maps a thrown
`BaseApplicationError` to its `statusCode`; success returns 200. -/
def httpRunJob (_gate : SchedState) (env : ExecEnv) (s : EngineState) (taskId : String) :
    Nat × EngineState :=
  match TaskService.executeTask env s taskId with
  | (.ok _, s2) => (200, s2)
  | (.error e, s2) => (e.statusCode, s2)

/-- Route `POST /tasks` as wired: the route registers no middleware —
`RequestValidator.validateCreateTaskRequest` is exported but mounted on no
route — so the body goes straight to `TaskController.createTask` and
`TaskService.createTask`; 201 on success, the error's status otherwise. -/
def httpCreateTask (p : TaskPayload) (newId : String) (now : Int) (st : Store) : Nat × Store :=
  match TaskService.createTask p newId now st with
  | .ok (st2, _) => (201, st2)
  | .error e => (e.statusCode, st)

/-! ## Concrete fixtures for witnesses and counterexamples -/

/-- A recurring queued task with a five-minute schedule and a stale
`next_execution_at` of 0. -/
def sampleRecurringRow : TaskRow :=
  { task_id := "t1"
    task_label := "job"
    payload_data := "null"
    urgency_level := "low"
    execution_state := "queued"
    schedule_pattern := some "*/5 * * * *"
    is_recurring := true
    next_execution_at := some 0
    execution_attempts := 0
    execution_duration_ms := none
    failure_reason := none
    last_executed_at := none
    completed_at := none
    spawned_at := 0 }

/-- A non-recurring queued task that has never run. -/
def sampleSimpleRow : TaskRow :=
  { sampleRecurringRow with
    schedule_pattern := none
    is_recurring := false
    next_execution_at := none }

/-- The same task caught mid-run. -/
def sampleProcessingRow : TaskRow :=
  { sampleSimpleRow with execution_state := "processing" }

/-- Clock readings for a run starting at 1000 ms and finishing at 4000 ms,
with a successful work unit and successful delivery. -/
def sampleEnvOk : ExecEnv :=
  { startTime := 1000
    markTime := 1001
    endTime := 4000
    nextCalcTime := 4001
    workResult := none
    webhookOutcome := true }

/-- Engine storage holding exactly one task row. -/
def engineWith (r : TaskRow) : EngineState :=
  { store := [r], history := [], webhookLog := [] }

/-- A scheduler state with a saturated gate of width 5 and empty queues. -/
def saturatedGate : SchedState :=
  { activeTasksCount := 5
    maxConcurrentTasks := 5
    taskQueue := []
    pendingManual := []
    started := [] }

/-- A creation body whose label has 256 characters and whose other fields are
valid. -/
def longNameBody : TaskPayload :=
  { taskName := some (String.mk (List.replicate 256 'a'))
    payload := some (.obj .nil)
    priority := some "low"
    schedulePattern := none }

/-- The successful-run environment with a failing webhook delivery. -/
def c4Env : ExecEnv := { sampleEnvOk with webhookOutcome := false }

/-- The environment of a first run whose work unit raises `Error("boom")`. -/
def c6Env : ExecEnv := { sampleEnvOk with workResult := some "boom" }

/-- A saturated three-wide gate with an empty overflow queue. -/
def c7Gate : SchedState :=
  { activeTasksCount := 3
    maxConcurrentTasks := 3
    taskQueue := []
    pendingManual := []
    started := [] }

/-- A valid creation body carrying the five-minute schedule pattern. -/
def fiveMinuteBody : TaskPayload :=
  { taskName := some "report"
    payload := some (.arr .nil)
    priority := some "medium"
    schedulePattern := some "*/5 * * * *" }

/-- A nested payload exercising every JSON constructor and the string
escapes. -/
def samplePayload : Json :=
  .obj (.cons ['k'] (.num 5)
    (.cons ['l'] (.arr (.cons (.str ['h', 'i', ' ', '"', '\\', '\x0a']) (.cons .null
      (.cons (.bool true) (.cons (.num (-42)) .nil)))))
      (.cons ['m'] (.obj .nil) .nil)))

/-- The column values of a creation request carrying `samplePayload`. -/
def samplePayloadData : NewTaskData :=
  { task_id := "id9"
    task_label := "payload round trip"
    payload_data := samplePayload
    urgency_level := "low"
    schedule_pattern := none
    is_recurring := false
    next_execution_at := none }

/-! ### Round trip of the JSON codec: helper lemmas -/

theorem skipWs_cons {c : Char} (r : List Char) (h : isWsChar c = false) :
    skipWs (c :: r) = c :: r := by
  simp [skipWs, List.dropWhile_cons, h]

theorem digitChar_toNat {d : Nat} (h : d < 10) : (digitChar d).toNat = 48 + d := by
  interval_cases d <;> decide

theorem digitChar_isDigit {d : Nat} (h : d < 10) : (digitChar d).isDigit = true := by
  interval_cases d <;> decide

/-- A decimal digit character is not whitespace, none of the characters the
value dispatch of `parseValue` tests before its digit branch, and none of the
delimiters that may follow a printed value. -/
theorem digitChar_dispatch {d : Nat} (h : d < 10) :
    isWsChar (digitChar d) = false ∧ digitChar d ≠ 'n' ∧ digitChar d ≠ 't' ∧
    digitChar d ≠ 'f' ∧ digitChar d ≠ '"' ∧ digitChar d ≠ '[' ∧ digitChar d ≠ '{' ∧
    digitChar d ≠ '-' ∧ digitChar d ≠ ']' ∧ digitChar d ≠ '}' ∧ digitChar d ≠ ',' := by
  interval_cases d <;> decide

theorem natToDigitsRev_mem : ∀ n : Nat, ∀ c ∈ natToDigitsRev n, ∃ d, d < 10 ∧ c = digitChar d := by
  intro n
  induction n using Nat.strong_induction_on with
  | _ n ih =>
    cases n with
    | zero => simp [natToDigitsRev]
    | succ m =>
      rw [natToDigitsRev]
      intro c hc
      rcases List.mem_cons.mp hc with h1 | h1
      · exact ⟨(m + 1) % 10, Nat.mod_lt _ (by norm_num), h1⟩
      · exact ih ((m + 1) / 10) (Nat.div_lt_self (Nat.succ_pos m) (by norm_num)) c h1

theorem valRev_natToDigitsRev : ∀ n : Nat, valRev (natToDigitsRev n) = n := by
  intro n
  induction n using Nat.strong_induction_on with
  | _ n ih =>
    cases n with
    | zero => simp [natToDigitsRev, valRev]
    | succ m =>
      rw [natToDigitsRev, valRev, digitChar_toNat (Nat.mod_lt _ (by norm_num)),
        ih ((m + 1) / 10) (Nat.div_lt_self (Nat.succ_pos m) (by norm_num))]
      omega

theorem natToChars_all : ∀ n : Nat, ∀ c ∈ natToChars n, ∃ d, d < 10 ∧ c = digitChar d := by
  intro n c hc
  by_cases h : n = 0
  · subst h
    simp [natToChars] at hc
    exact ⟨0, by norm_num, by rw [hc]; rfl⟩
  · rw [natToChars, if_neg h] at hc
    exact natToDigitsRev_mem n c (List.mem_reverse.mp hc)

theorem natToChars_ne_nil (n : Nat) : natToChars n ≠ [] := by
  by_cases h : n = 0
  · subst h; simp [natToChars]
  · rw [natToChars, if_neg h]
    cases n with
    | zero => exact absurd rfl h
    | succ m => rw [natToDigitsRev]; simp

theorem digitsVal_natToChars (n : Nat) : digitsVal (natToChars n) = n := by
  by_cases h : n = 0
  · subst h; decide
  · rw [natToChars, if_neg h, digitsVal, List.reverse_reverse, valRev_natToDigitsRev]

theorem takeWhile_append_all {p : Char → Bool} :
    ∀ l r : List Char, (∀ c ∈ l, p c = true) → (∀ c, r.head? = some c → p c = false) →
    (l ++ r).takeWhile p = l := by
  intro l
  induction l with
  | nil =>
    intro r _ hr
    cases r with
    | nil => rfl
    | cons c cs => simp [List.takeWhile_cons, hr c rfl]
  | cons c l ih =>
    intro r hl hr
    simp only [List.cons_append, List.takeWhile_cons, hl c (List.mem_cons_self c l), if_true]
    rw [ih r (fun x hx => hl x (List.mem_cons_of_mem c hx)) hr]

theorem parseNatChars_roundtrip (n : Nat) (rest : List Char)
    (hrest : ∀ c, rest.head? = some c → c.isDigit = false) :
    parseNatChars (natToChars n ++ rest) = some (n, rest) := by
  have hall : ∀ c ∈ natToChars n, Char.isDigit c = true := by
    intro c hc
    obtain ⟨d, hd, rfl⟩ := natToChars_all n c hc
    exact digitChar_isDigit hd
  have htw := takeWhile_append_all (natToChars n) rest hall hrest
  rw [parseNatChars]
  simp only [htw, List.isEmpty_iff, digitsVal_natToChars]
  rw [if_neg (natToChars_ne_nil n), List.drop_left]

theorem hexVal_hexDigitChar {d : Nat} (h : d < 16) : hexVal (hexDigitChar d) = some d := by
  interval_cases d <;> decide

/-- Decoding one printed escape (or raw character) gives back the character. -/
theorem parseStringBody_escape (c : Char) (tail : List Char) :
    parseStringBody (escapeChar c ++ tail) =
      (parseStringBody tail).map fun p => (c :: p.1, p.2) := by
  by_cases h1 : c = '"'
  · subst h1; rw [escapeChar]; simp only [if_pos rfl, List.cons_append, List.nil_append]
    rw [parseStringBody.eq_def]; simp [unescapeChar]
  by_cases h2 : c = '\\'
  · subst h2; rw [escapeChar]
    simp only [if_neg (by decide : ¬ ('\\' : Char) = '"'), if_pos rfl, List.cons_append,
      List.nil_append]
    rw [parseStringBody.eq_def]; simp [unescapeChar]
  by_cases h3 : c = '\x08'
  · subst h3; rw [escapeChar]
    simp only [if_neg (by decide : ¬ ('\x08' : Char) = '"'),
      if_neg (by decide : ¬ ('\x08' : Char) = '\\'), if_pos rfl, List.cons_append,
      List.nil_append]
    rw [parseStringBody.eq_def]; simp [unescapeChar]
  by_cases h4 : c = '\x09'
  · subst h4; rw [escapeChar]
    simp only [if_neg (by decide : ¬ ('\x09' : Char) = '"'),
      if_neg (by decide : ¬ ('\x09' : Char) = '\\'),
      if_neg (by decide : ¬ ('\x09' : Char) = '\x08'), if_pos rfl, List.cons_append,
      List.nil_append]
    rw [parseStringBody.eq_def]; simp [unescapeChar]
  by_cases h5 : c = '\x0a'
  · subst h5; rw [escapeChar]
    simp only [if_neg (by decide : ¬ ('\x0a' : Char) = '"'),
      if_neg (by decide : ¬ ('\x0a' : Char) = '\\'),
      if_neg (by decide : ¬ ('\x0a' : Char) = '\x08'),
      if_neg (by decide : ¬ ('\x0a' : Char) = '\x09'), if_pos rfl, List.cons_append,
      List.nil_append]
    rw [parseStringBody.eq_def]; simp [unescapeChar]
  by_cases h6 : c = '\x0c'
  · subst h6; rw [escapeChar]
    simp only [if_neg (by decide : ¬ ('\x0c' : Char) = '"'),
      if_neg (by decide : ¬ ('\x0c' : Char) = '\\'),
      if_neg (by decide : ¬ ('\x0c' : Char) = '\x08'),
      if_neg (by decide : ¬ ('\x0c' : Char) = '\x09'),
      if_neg (by decide : ¬ ('\x0c' : Char) = '\x0a'), if_pos rfl, List.cons_append,
      List.nil_append]
    rw [parseStringBody.eq_def]; simp [unescapeChar]
  by_cases h7 : c = '\x0d'
  · subst h7; rw [escapeChar]
    simp only [if_neg (by decide : ¬ ('\x0d' : Char) = '"'),
      if_neg (by decide : ¬ ('\x0d' : Char) = '\\'),
      if_neg (by decide : ¬ ('\x0d' : Char) = '\x08'),
      if_neg (by decide : ¬ ('\x0d' : Char) = '\x09'),
      if_neg (by decide : ¬ ('\x0d' : Char) = '\x0a'),
      if_neg (by decide : ¬ ('\x0d' : Char) = '\x0c'), if_pos rfl, List.cons_append,
      List.nil_append]
    rw [parseStringBody.eq_def]; simp [unescapeChar]
  by_cases h8 : c.toNat < 32
  · rw [escapeChar, if_neg h1, if_neg h2, if_neg h3, if_neg h4, if_neg h5, if_neg h6,
      if_neg h7, if_pos h8, hex4]
    simp only [List.cons_append, List.nil_append]
    rw [parseStringBody.eq_def]
    simp only [if_pos rfl, if_neg (by decide : ¬ ('\\' : Char) = '"')]
    rw [hexVal_hexDigitChar (Nat.mod_lt _ (by norm_num)),
      hexVal_hexDigitChar (Nat.mod_lt _ (by norm_num)),
      hexVal_hexDigitChar (Nat.mod_lt _ (by norm_num)),
      hexVal_hexDigitChar (Nat.mod_lt _ (by norm_num))]
    have hn : ((c.toNat / 4096 % 16 * 16 + c.toNat / 256 % 16) * 16 + c.toNat / 16 % 16) * 16 +
        c.toNat % 16 = c.toNat := by omega
    have hc : Char.ofNat (((c.toNat / 4096 % 16 * 16 + c.toNat / 256 % 16) * 16 +
        c.toNat / 16 % 16) * 16 + c.toNat % 16) = c := by rw [hn, Char.ofNat_toNat]
    simp [hc]
  · rw [escapeChar, if_neg h1, if_neg h2, if_neg h3, if_neg h4, if_neg h5, if_neg h6,
      if_neg h7, if_neg h8]
    simp only [List.cons_append, List.nil_append]
    rw [parseStringBody.eq_def]
    simp only []
    rw [if_neg h1, if_neg h2, if_neg h8]

/-- Reading back a printed string body gives the original characters and the
input after the closing quote. -/
theorem parseStringBody_roundtrip (s : List Char) (rest : List Char) :
    parseStringBody (escapeChars s ++ ('"' :: rest)) = some (s, rest) := by
  induction s with
  | nil =>
    rw [escapeChars, List.nil_append, parseStringBody.eq_def]
    simp
  | cons c s ih =>
    rw [escapeChars, List.append_assoc, parseStringBody_escape, ih]
    rfl

theorem jfuel_pos (v : Json) : 1 ≤ jfuel v := by
  cases v <;> simp [jfuel]

theorem jfuelItems_pos (xs : JsonItems) : 1 ≤ jfuelItems xs := by
  cases xs <;> simp [jfuelItems]

theorem jfuelMembers_pos (ms : JsonMembers) : 1 ≤ jfuelMembers ms := by
  cases ms <;> simp [jfuelMembers]

/-- The first printed character of any value is never whitespace nor one of the
delimiters `]`, `}`, `,`, and never one of the keyword heads it is not. -/
theorem stringifyVal_head (v : Json) :
    ∃ c cs, stringifyVal v = c :: cs ∧ isWsChar c = false ∧ c ≠ ']' ∧ c ≠ '}' ∧ c ≠ ',' := by
  cases v with
  | null => exact ⟨'n', _, rfl, by decide, by decide, by decide, by decide⟩
  | bool b =>
    cases b with
    | true => exact ⟨'t', _, rfl, by decide, by decide, by decide, by decide⟩
    | false => exact ⟨'f', _, rfl, by decide, by decide, by decide, by decide⟩
  | num n =>
    by_cases hneg : n < 0
    · exact ⟨'-', _, by rw [stringifyVal, intToChars, if_pos hneg], by decide, by decide,
        by decide, by decide⟩
    · have hnn := natToChars_ne_nil n.natAbs
      cases hm : natToChars n.natAbs with
      | nil => exact absurd hm hnn
      | cons c cs =>
        obtain ⟨d, hd, rfl⟩ := natToChars_all n.natAbs c (by rw [hm]; exact List.mem_cons_self _ _)
        obtain ⟨w1, _, _, _, _, _, _, _, w9, w10, w11⟩ := digitChar_dispatch hd
        exact ⟨digitChar d, cs, by rw [stringifyVal, intToChars, if_neg hneg, hm], w1, w9, w10, w11⟩
  | str s => exact ⟨'"', _, rfl, by decide, by decide, by decide, by decide⟩
  | arr xs => exact ⟨'[', _, rfl, by decide, by decide, by decide, by decide⟩
  | obj ms => exact ⟨'{', _, rfl, by decide, by decide, by decide, by decide⟩

/-- The items of a non-empty array start with the first item's first character. -/
theorem stringifyItems_cons_ex (v : Json) (tl : JsonItems) :
    ∃ t, stringifyItems (.cons v tl) = stringifyVal v ++ t := by
  cases tl with
  | nil => exact ⟨[], (List.append_nil _).symm⟩
  | cons v2 tl2 => exact ⟨_, rfl⟩

mutual

/-- Reading back a printed value returns it unchanged, leaving exactly the
trailing input, whenever the trailing input does not begin with a digit (which
could only extend a printed number) and the fuel covers the value. -/
theorem parseValue_stringify (v : Json) : ∀ (fuel : Nat) (rest : List Char), jfuel v ≤ fuel →
    (∀ c, rest.head? = some c → c.isDigit = false) →
    parseValue fuel (stringifyVal v ++ rest) = some (v, rest) := by
  intro fuel rest hfuel hrest
  cases fuel with
  | zero => exact absurd hfuel (by have := jfuel_pos v; omega)
  | succ f =>
    cases v with
    | null =>
      rw [parseValue.eq_def]
      simp only [stringifyVal, List.cons_append, List.nil_append]
      rw [skipWs_cons _ (by decide)]
      simp
    | bool b =>
      cases b with
      | true =>
        rw [parseValue.eq_def]
        simp only [stringifyVal, List.cons_append, List.nil_append]
        rw [skipWs_cons _ (by decide)]
        simp
      | false =>
        rw [parseValue.eq_def]
        simp only [stringifyVal, List.cons_append, List.nil_append]
        rw [skipWs_cons _ (by decide)]
        simp
    | num n =>
      by_cases hneg : n < 0
      · rw [parseValue.eq_def]
        simp only [stringifyVal, intToChars, if_pos hneg, List.cons_append]
        rw [skipWs_cons _ (by decide)]
        simp only [if_neg (by decide : ¬ ('-' : Char) = 'n'),
          if_neg (by decide : ¬ ('-' : Char) = 't'), if_neg (by decide : ¬ ('-' : Char) = 'f'),
          if_neg (by decide : ¬ ('-' : Char) = '"'), if_neg (by decide : ¬ ('-' : Char) = '['),
          if_neg (by decide : ¬ ('-' : Char) = '{'), if_pos rfl]
        rw [parseNatChars_roundtrip _ _ hrest]
        have h9 : -((n.natAbs : Int)) = n := by omega
        show some (Json.num (-((n.natAbs : Int))), rest) = some (Json.num n, rest)
        rw [h9]
      · have hnn := natToChars_ne_nil n.natAbs
        cases hm : natToChars n.natAbs with
        | nil => exact absurd hm hnn
        | cons c cs =>
          obtain ⟨d, hd, hcd⟩ := natToChars_all n.natAbs c (by rw [hm]; exact List.mem_cons_self _ _)
          obtain ⟨w1, w2, w3, w4, w5, w6, w7, w8, _, _, _⟩ := digitChar_dispatch hd
          subst hcd
          rw [parseValue.eq_def]
          simp only [stringifyVal, intToChars, if_neg hneg, hm, List.cons_append]
          rw [skipWs_cons _ w1]
          simp only [if_neg w2, if_neg w3, if_neg w4, if_neg w5, if_neg w6, if_neg w7, if_neg w8,
            if_pos (digitChar_isDigit hd)]
          rw [show digitChar d :: (cs ++ rest) = natToChars n.natAbs ++ rest from by
            rw [hm, List.cons_append]]
          rw [parseNatChars_roundtrip _ _ hrest]
          have h9 : ((n.natAbs : Int)) = n := by omega
          show some (Json.num ((n.natAbs : Int)), rest) = some (Json.num n, rest)
          rw [h9]
    | str s =>
      rw [parseValue.eq_def]
      simp only [stringifyVal, stringifyString, List.cons_append, List.append_assoc,
        List.nil_append]
      rw [skipWs_cons _ (by decide)]
      simp only [if_neg (by decide : ¬ ('"' : Char) = 'n'),
        if_neg (by decide : ¬ ('"' : Char) = 't'), if_neg (by decide : ¬ ('"' : Char) = 'f'),
        if_pos rfl]
      rw [parseStringBody_roundtrip]
      rfl
    | arr xs =>
      cases xs with
      | nil =>
        rw [parseValue.eq_def]
        simp only [stringifyVal, stringifyItems, List.cons_append, List.nil_append]
        rw [skipWs_cons _ (by decide)]
        simp only [if_neg (by decide : ¬ ('[' : Char) = 'n'),
          if_neg (by decide : ¬ ('[' : Char) = 't'), if_neg (by decide : ¬ ('[' : Char) = 'f'),
          if_neg (by decide : ¬ ('[' : Char) = '"'), if_pos rfl]
        rw [skipWs_cons _ (by decide)]
        simp
      | cons v1 tl =>
        obtain ⟨t, ht⟩ := stringifyItems_cons_ex v1 tl
        obtain ⟨c, cs, hv, hws, hrb, _, _⟩ := stringifyVal_head v1
        have hinner : stringifyItems (.cons v1 tl) ++ (']' :: rest) =
            c :: (cs ++ (t ++ (']' :: rest))) := by
          rw [ht, hv]
          simp [List.append_assoc]
        rw [parseValue.eq_def]
        simp only [stringifyVal, List.cons_append, List.append_assoc, List.nil_append]
        rw [skipWs_cons _ (by decide)]
        simp only [if_neg (by decide : ¬ ('[' : Char) = 'n'),
          if_neg (by decide : ¬ ('[' : Char) = 't'), if_neg (by decide : ¬ ('[' : Char) = 'f'),
          if_neg (by decide : ¬ ('[' : Char) = '"'), if_pos rfl]
        have hcons : stringifyItems (.cons v1 tl) ++ ']' :: rest =
            c :: (cs ++ (t ++ (']' :: rest))) := hinner
        rw [hcons, skipWs_cons _ hws]
        simp only [List.head?_cons, List.tail_cons]
        rw [if_neg (show ¬ (some c = some ']') from by simp [hrb])]
        rw [← hcons, parseItems_stringify (.cons v1 tl) (by simp) f rest
          (by simp only [jfuel] at hfuel; omega)]
        rfl
    | obj ms =>
      cases ms with
      | nil =>
        rw [parseValue.eq_def]
        simp only [stringifyVal, stringifyMembers, List.cons_append, List.nil_append]
        rw [skipWs_cons _ (by decide)]
        simp only [if_neg (by decide : ¬ ('{' : Char) = 'n'),
          if_neg (by decide : ¬ ('{' : Char) = 't'), if_neg (by decide : ¬ ('{' : Char) = 'f'),
          if_neg (by decide : ¬ ('{' : Char) = '"'), if_neg (by decide : ¬ ('{' : Char) = '['),
          if_pos rfl]
        rw [skipWs_cons _ (by decide)]
        simp
      | cons k v1 tl =>
        have hkey : ∃ t, stringifyMembers (.cons k v1 tl) = stringifyString k ++ t := by
          cases tl with
          | nil => exact ⟨_, rfl⟩
          | cons k2 v2 tl2 => exact ⟨_, rfl⟩
        obtain ⟨t, ht⟩ := hkey
        have hinner : stringifyMembers (.cons k v1 tl) ++ ('}' :: rest) =
            '"' :: (escapeChars k ++ ('"' :: (t ++ ('}' :: rest)))) := by
          rw [ht, stringifyString]
          simp [List.append_assoc]
        rw [parseValue.eq_def]
        simp only [stringifyVal, List.cons_append, List.append_assoc, List.nil_append]
        rw [skipWs_cons _ (by decide)]
        simp only [if_neg (by decide : ¬ ('{' : Char) = 'n'),
          if_neg (by decide : ¬ ('{' : Char) = 't'), if_neg (by decide : ¬ ('{' : Char) = 'f'),
          if_neg (by decide : ¬ ('{' : Char) = '"'), if_neg (by decide : ¬ ('{' : Char) = '['),
          if_pos rfl]
        rw [hinner, skipWs_cons _ (by decide)]
        simp only [List.head?_cons, List.tail_cons]
        rw [if_neg (by decide : ¬ ((some '"' : Option Char) = some '}')), ← hinner,
          parseMembers_stringify (.cons k v1 tl) (by simp) f rest
          (by simp only [jfuel] at hfuel; omega)]
        rfl

/-- Reading back the printed items of a non-empty array, with the closing
bracket appended, returns the items and the trailing input. -/
theorem parseItems_stringify (xs : JsonItems) (hne : xs ≠ .nil) :
    ∀ (fuel : Nat) (rest : List Char), jfuelItems xs ≤ fuel →
    parseItems fuel (stringifyItems xs ++ (']' :: rest)) = some (xs, rest) := by
  intro fuel rest hfuel
  cases fuel with
  | zero => exact absurd hfuel (by have := jfuelItems_pos xs; omega)
  | succ f =>
    cases xs with
    | nil => exact absurd rfl hne
    | cons v tl =>
      cases tl with
      | nil =>
        rw [parseItems]
        rw [show stringifyItems (.cons v .nil) ++ (']' :: rest) = stringifyVal v ++ (']' :: rest)
          from by rw [stringifyItems]]
        rw [parseValue_stringify v f (']' :: rest)
          (by simp only [jfuelItems, jfuel] at hfuel ⊢; omega)
          (by intro c hc; cases hc; decide)]
        simp only [skipWs_cons rest (by decide : isWsChar (']' : Char) = false)]
      | cons v2 tl2 =>
        rw [parseItems]
        rw [show stringifyItems (.cons v (.cons v2 tl2)) ++ (']' :: rest) =
            stringifyVal v ++ (',' :: (stringifyItems (.cons v2 tl2) ++ (']' :: rest)))
          from by
            rw [stringifyItems.eq_3 _ _ (fun h => JsonItems.noConfusion h)]
            simp [List.append_assoc]]
        rw [parseValue_stringify v f _
          (by simp only [jfuelItems, jfuel] at hfuel ⊢; omega)
          (by intro c hc; cases hc; decide)]
        simp only [skipWs_cons (stringifyItems (.cons v2 tl2) ++ (']' :: rest))
          (by decide : isWsChar (',' : Char) = false)]
        rw [parseItems_stringify (.cons v2 tl2) (by intro h; exact JsonItems.noConfusion h) f rest
          (by simp only [jfuelItems] at hfuel ⊢; omega)]
        rfl

/-- Reading back the printed members of a non-empty object, with the closing
brace appended, returns the members and the trailing input. -/
theorem parseMembers_stringify (ms : JsonMembers) (hne : ms ≠ .nil) :
    ∀ (fuel : Nat) (rest : List Char), jfuelMembers ms ≤ fuel →
    parseMembers fuel (stringifyMembers ms ++ ('}' :: rest)) = some (ms, rest) := by
  intro fuel rest hfuel
  cases fuel with
  | zero => exact absurd hfuel (by have := jfuelMembers_pos ms; omega)
  | succ f =>
    cases ms with
    | nil => exact absurd rfl hne
    | cons k v tl =>
      cases tl with
      | nil =>
        rw [parseMembers]
        rw [show stringifyMembers (.cons k v .nil) ++ ('}' :: rest) =
            '"' :: (escapeChars k ++ ('"' :: (':' :: (stringifyVal v ++ ('}' :: rest)))))
          from by rw [stringifyMembers.eq_2, stringifyString]; simp [List.append_assoc]]
        have hv := parseValue_stringify v f ('}' :: rest)
          (by simp only [jfuelMembers, jfuel] at hfuel ⊢; omega)
          (by intro c hc; cases hc; decide)
        simp only [skipWs_cons (escapeChars k ++ ('"' :: (':' :: (stringifyVal v ++
            ('}' :: rest))))) (by decide : isWsChar ('"' : Char) = false),
          parseStringBody_roundtrip,
          skipWs_cons (stringifyVal v ++ ('}' :: rest))
            (by decide : isWsChar (':' : Char) = false),
          hv, skipWs_cons rest (by decide : isWsChar ('}' : Char) = false)]
      | cons k2 v2 tl2 =>
        rw [parseMembers]
        rw [show stringifyMembers (.cons k v (.cons k2 v2 tl2)) ++ ('}' :: rest) =
            '"' :: (escapeChars k ++ ('"' :: (':' :: (stringifyVal v ++
              (',' :: (stringifyMembers (.cons k2 v2 tl2) ++ ('}' :: rest)))))))
          from by
            rw [stringifyMembers.eq_3 _ _ _ (fun h => JsonMembers.noConfusion h), stringifyString]
            simp [List.append_assoc]]
        have hv := parseValue_stringify v f
          (',' :: (stringifyMembers (.cons k2 v2 tl2) ++ ('}' :: rest)))
          (by simp only [jfuelMembers, jfuel] at hfuel ⊢; omega)
          (by intro c hc; cases hc; decide)
        have hm2 := parseMembers_stringify (.cons k2 v2 tl2)
          (fun h => JsonMembers.noConfusion h) f rest
          (by simp only [jfuelMembers] at hfuel ⊢; omega)
        simp only [skipWs_cons (escapeChars k ++ ('"' :: (':' :: (stringifyVal v ++
            (',' :: (stringifyMembers (.cons k2 v2 tl2) ++ ('}' :: rest)))))))
            (by decide : isWsChar ('"' : Char) = false),
          parseStringBody_roundtrip,
          skipWs_cons (stringifyVal v ++ (',' :: (stringifyMembers (.cons k2 v2 tl2) ++
            ('}' :: rest)))) (by decide : isWsChar (':' : Char) = false),
          hv,
          skipWs_cons (stringifyMembers (.cons k2 v2 tl2) ++ ('}' :: rest))
            (by decide : isWsChar (',' : Char) = false),
          hm2, Option.map_some']

end

mutual

/-- The fuel bound of a value is covered by twice its printed length. -/
theorem jfuel_le (v : Json) : jfuel v ≤ 2 * (stringifyVal v).length := by
  cases v with
  | null => simp [jfuel, stringifyVal]
  | bool b => cases b <;> simp [jfuel, stringifyVal]
  | num n =>
    obtain ⟨c, cs, h, _, _, _, _⟩ := stringifyVal_head (.num n)
    rw [jfuel, h]
    simp only [List.length_cons]
    omega
  | str s =>
    obtain ⟨c, cs, h, _, _, _, _⟩ := stringifyVal_head (.str s)
    rw [jfuel, h]
    simp only [List.length_cons]
    omega
  | arr xs =>
    have h := jfuelItems_le xs
    simp only [jfuel, stringifyVal, List.length_cons, List.length_append, List.length_cons,
      List.length_nil] at h ⊢
    omega
  | obj ms =>
    have h := jfuelMembers_le ms
    simp only [jfuel, stringifyVal, List.length_cons, List.length_append, List.length_cons,
      List.length_nil] at h ⊢
    omega

/-- Fuel bound for printed array bodies. -/
theorem jfuelItems_le (xs : JsonItems) : jfuelItems xs ≤ 2 * (stringifyItems xs).length + 3 := by
  cases xs with
  | nil => simp [jfuelItems, stringifyItems]
  | cons v tl =>
    have hv := jfuel_le v
    cases tl with
    | nil =>
      rw [stringifyItems.eq_2]
      simp only [jfuelItems] at hv ⊢
      omega
    | cons v2 tl2 =>
      have ht := jfuelItems_le (.cons v2 tl2)
      rw [stringifyItems.eq_3 _ _ (fun h => JsonItems.noConfusion h)]
      simp only [jfuelItems, List.length_append, List.length_cons] at hv ht ⊢
      omega

/-- Fuel bound for printed object bodies. -/
theorem jfuelMembers_le (ms : JsonMembers) :
    jfuelMembers ms ≤ 2 * (stringifyMembers ms).length + 3 := by
  cases ms with
  | nil => simp [jfuelMembers, stringifyMembers]
  | cons k v tl =>
    have hv := jfuel_le v
    cases tl with
    | nil =>
      rw [stringifyMembers.eq_2]
      simp only [jfuelMembers, List.length_append, List.length_cons] at hv ⊢
      omega
    | cons k2 v2 tl2 =>
      have ht := jfuelMembers_le (.cons k2 v2 tl2)
      rw [stringifyMembers.eq_3 _ _ _ (fun h => JsonMembers.noConfusion h)]
      simp only [jfuelMembers, List.length_append, List.length_cons] at hv ht ⊢
      omega

end

/-- The platform JSON round trip used by the repository: parsing a stringified
value returns the value. -/
theorem jsonParse_stringify (v : Json) : jsonParse (jsonStringify v) = some v := by
  have hlen : (jsonStringify v).length = (stringifyVal v).length := rfl
  have hdata : (jsonStringify v).data = stringifyVal v := rfl
  have hfuel : jfuel v ≤ 2 * (jsonStringify v).length + 4 := by
    have := jfuel_le v
    omega
  have hmain := parseValue_stringify v (2 * (jsonStringify v).length + 4) [] hfuel
    (by intro c hc; cases hc)
  rw [jsonParse, hdata, show stringifyVal v = stringifyVal v ++ [] from (List.append_nil _).symm,
    hmain]
  rfl

/-! ## Store lemmas -/

theorem applyUpdate_task_id (r : TaskRow) (ns : StateStr) (u : UpdateFields) (now : Int) :
    (applyUpdate r ns u now).task_id = r.task_id := rfl

/-- The column `next_execution_at` is outside the SET clause of `updateTaskState`: no
update ever changes it. -/
theorem applyUpdate_next_execution_at (r : TaskRow) (ns : StateStr) (u : UpdateFields)
    (now : Int) : (applyUpdate r ns u now).next_execution_at = r.next_execution_at := rfl

theorem selectTaskRow_updateWhere (st : Store) (taskId : String) (ns : StateStr)
    (u : UpdateFields) (now : Int) :
    selectTaskRow (updateWhere st taskId ns u now) taskId =
      (selectTaskRow st taskId).map fun r => applyUpdate r ns u now := by
  unfold selectTaskRow updateWhere
  rw [List.find?_map]
  have hfun : ((fun r : TaskRow => decide (r.task_id = taskId)) ∘
      fun r => if r.task_id = taskId then applyUpdate r ns u now else r) =
      fun r : TaskRow => decide (r.task_id = taskId) := by
    funext r
    by_cases h : r.task_id = taskId
    · simp [Function.comp, h, applyUpdate_task_id]
    · simp [Function.comp, h]
  rw [hfun]
  cases hf : List.find? (fun r : TaskRow => decide (r.task_id = taskId)) st with
  | none => rfl
  | some r0 =>
    have hp := List.find?_some hf
    simp only [decide_eq_true_eq] at hp
    simp [hp]

theorem selectTaskRow_append_fresh (st : Store) (row : TaskRow) (taskId : String)
    (hfresh : ∀ r ∈ st, r.task_id ≠ taskId) (hrow : row.task_id = taskId) :
    selectTaskRow (st ++ [row]) taskId = some row := by
  unfold selectTaskRow
  rw [List.find?_append]
  have h1 : st.find? (fun r => decide (r.task_id = taskId)) = none :=
    List.find?_eq_none.mpr fun x hx => by simp [hfresh x hx]
  rw [h1]
  simp [List.find?_cons, hrow]

/-! ## Claims -/

/-- Claim C1.  After a successful run of the recurring task `t1` (schedule
`*\/5 * * * *`, stale `next_execution_at = 0`), the store does hold state
`queued` again, and `_scheduleNextExecution` computes the fresh instant
304001 = finish-time-reading 4001 plus five minutes; but the persisted
`next_execution_at` is still the stale 0 and not the fresh instant, because
`updateTaskState` has no branch for the `next_execution_at` field it is
passed — as the final conjunct states, no `updateTaskState` call can ever
change that column.  This refutes the claim that the partial update applies
`next_execution_at` so that the persisted `nextRunAt` actually changes. -/
theorem C1_requeue_loses_next_execution_at :
    (let out := TaskService.executeTask sampleEnvOk (engineWith sampleRecurringRow) "t1"
    (selectTaskRow out.2.store "t1").map (fun r => r.execution_state) = some "queued" ∧
    TaskService.calculateNextExecution "*/5 * * * *" sampleEnvOk.nextCalcTime = some 304001 ∧
    (selectTaskRow out.2.store "t1").map (fun r => r.next_execution_at) = some (some 0) ∧
    (selectTaskRow out.2.store "t1").map (fun r => r.next_execution_at) ≠ some (some 304001)) ∧
    ∀ (r : TaskRow) (ns : StateStr) (u : UpdateFields) (now : Int),
      (applyUpdate r ns u now).next_execution_at = r.next_execution_at := by
  exact ⟨by decide, fun r ns u now => rfl⟩

/-- Claim C2.  `POST /run-job/:id` with the concurrency gate saturated
(5 active of 5): the wired route calls `TaskService.executeTask` directly and
never consults the gate, so the request returns 200 — not the claimed 429 —
the queued task `t1` is executed (it ends `completed` with one attempt), and
its state is mutated.  The final conjunct shows the divergence is in the
wiring: `SchedulerService.manualExecuteTask`'s own capacity check would have
rejected the call without mutating anything, but nothing on the HTTP path
invokes it. -/
theorem C2_manual_execution_bypasses_gate :
    (let out := httpRunJob saturatedGate sampleEnvOk (engineWith sampleSimpleRow) "t1"
    saturatedGate.activeTasksCount = saturatedGate.maxConcurrentTasks ∧
    out.1 = 200 ∧
    out.1 ≠ 429 ∧
    (selectTaskRow out.2.store "t1").map (fun r => r.execution_state) = some "completed" ∧
    (selectTaskRow out.2.store "t1").map (fun r => r.execution_attempts) = some 1) ∧
    schedStep (.manualCheck "t1") saturatedGate = saturatedGate := by
  exact ⟨by decide, by decide⟩

/-- Claim C3.  A reachable interleaving in which `activeTasksCount` exceeds
`maxConcurrentTasks = 1`: a manual call passes its capacity check at count 0
and suspends at the awaited store lookup; a scheduler tick then admits a due
task (count 1 = limit); the manual continuation resumes and
`_executeTaskAsync` increments without rechecking — count 2.  This refutes the
claimed invariant that the active count never exceeds the limit under any
interleaving. -/
theorem C3_active_count_exceeds_limit :
    (schedRun [.manualCheck "m", .tickSubmit "t", .manualResume]
      { activeTasksCount := 0, maxConcurrentTasks := 1, taskQueue := [],
        pendingManual := [], started := [] }).activeTasksCount = 2 ∧
    (schedRun [.manualCheck "m", .tickSubmit "t", .manualResume]
      { activeTasksCount := 0, maxConcurrentTasks := 1, taskQueue := [],
        pendingManual := [], started := [] }).maxConcurrentTasks = 1 := by
  decide

/-- Claim C5.  Invoking `executeTask` on a task whose state is `processing`
fails with the invalid-state-transition error and returns the storage
untouched: no store write, no attempt increment, no history entry; the second
caller's run does not proceed. -/
theorem C5_single_flight_guard (env : ExecEnv) (s : EngineState) (taskId : String)
    (task : Task) (hfind : TaskRepository.findTaskById s.store taskId = some task)
    (hproc : task.execution_state = "processing") :
    TaskService.executeTask env s taskId =
      (.error (.invalidTaskState "processing" "execute"), s) := by
  unfold TaskService.executeTask
  rw [hfind]
  simp [hproc]

/-- Claim C5, witness: the guard fires on a concrete `processing` task. -/
theorem C5_single_flight_guard_witness :
    TaskRepository.findTaskById (engineWith sampleProcessingRow).store "t1" =
      some (formatTaskData sampleProcessingRow) ∧
    (formatTaskData sampleProcessingRow).execution_state = "processing" ∧
    TaskService.executeTask sampleEnvOk (engineWith sampleProcessingRow) "t1" =
      (.error (.invalidTaskState "processing" "execute"), engineWith sampleProcessingRow) :=
  ⟨by decide, by decide,
    C5_single_flight_guard sampleEnvOk (engineWith sampleProcessingRow) "t1"
      (formatTaskData sampleProcessingRow) (by decide) (by decide)⟩

/-- Claim C6, counterexample.  A first run of the non-recurring task `t1`
whose work unit raises an `Error` with the empty message: the run ends
`failed`, but `failure_reason` is still NULL — not the error message — because
`updateTaskState` guards the column with a truthiness test that an empty
string fails.  This refutes the claim's "failure_reason (lastError) set to the
error message" for this input. -/
theorem C6_empty_message_not_recorded :
    let out := TaskService.executeTask { sampleEnvOk with workResult := some "" }
      (engineWith sampleSimpleRow) "t1"
    (selectTaskRow out.2.store "t1").map (fun r => r.execution_state) = some "failed" ∧
    (selectTaskRow out.2.store "t1").map (fun r => r.failure_reason) = some none ∧
    (selectTaskRow out.2.store "t1").map (fun r => r.failure_reason) ≠ some (some "") := by
  decide

/-- Claim C4.  When the work unit has succeeded and webhook delivery fails
(`webhookOutcome = false`, with `deliverWebhook` modelled from the spec as
never throwing), the failure is absorbed: `executeTask` still returns success,
the task ends in `completed` — or `queued` after the recurring requeue — and
is never flipped to `failed`, `failure_reason` is exactly what it was before
the run, the history entry is the success entry, the failed delivery is merely
logged, and the task store is bit-for-bit the store a successful delivery
would have produced. -/
theorem C4_notification_failure_absorbed (env : ExecEnv) (s : EngineState) (taskId : String)
    (task : Task)
    (hfind : TaskRepository.findTaskById s.store taskId = some task)
    (hstate : task.execution_state ≠ "processing")
    (hwork : env.workResult = none)
    (hhook : env.webhookOutcome = false) :
    (∃ v, (TaskService.executeTask env s taskId).1 = .ok v) ∧
    (TaskRepository.findTaskById (TaskService.executeTask env s taskId).2.store taskId).map
        (fun t => t.execution_state) =
      some (if task.is_recurring && strOptTruthy task.schedule_pattern then "queued"
        else "completed") ∧
    (TaskRepository.findTaskById (TaskService.executeTask env s taskId).2.store taskId).map
        (fun t => t.failure_reason) = some task.failure_reason ∧
    (TaskService.executeTask env s taskId).2.history = s.history ++
      [⟨taskId, "success", env.startTime, env.endTime, env.endTime - env.startTime, none⟩] ∧
    (TaskService.executeTask env s taskId).2.webhookLog = s.webhookLog ++
      [⟨taskId, false⟩] ∧
    (TaskService.executeTask env s taskId).2.store =
      (TaskService.executeTask { env with webhookOutcome := true } s taskId).2.store := by
  have hfind0 := hfind
  unfold TaskRepository.findTaskById at hfind0
  obtain ⟨r0, hsel, hfmt⟩ := Option.map_eq_some'.mp hfind0
  subst hfmt
  simp only [TaskService.executeTask, hfind, hwork, if_neg hstate,
    TaskRepository.updateTaskState, TaskService.scheduleNextExecution,
    TaskRepository.logExecution, WebhookService.deliverWebhook, hhook]
  refine ⟨⟨_, rfl⟩, ?_, ?_, ?_, ?_, ?_⟩ <;>
  first
  | trivial
  | by_cases hrec : ((formatTaskData r0).is_recurring &&
        strOptTruthy (formatTaskData r0).schedule_pattern) = true
    · rw [if_pos hrec]
      unfold TaskRepository.findTaskById
      rw [selectTaskRow_updateWhere, selectTaskRow_updateWhere, selectTaskRow_updateWhere, hsel]
      first
        | rw [if_pos hrec]; rfl
        | rfl
    · rw [if_neg hrec]
      unfold TaskRepository.findTaskById
      rw [selectTaskRow_updateWhere, selectTaskRow_updateWhere, hsel]
      first
        | rw [if_neg hrec]; rfl
        | rfl

/-- Claim C6, amended.  A failing work unit on a non-recurring task: the run
ends `failed` with attempts incremented by one, the duration recorded, a
failure history entry appended, `next_execution_at` untouched and no requeue,
no webhook delivered, and the execution-failed error re-raised once to the
caller after this bookkeeping; `failure_reason` is set to the error message
whenever the message is non-empty (the truthiness guard in `updateTaskState`
skips an empty one — the counterexample above). -/
theorem C6_failed_run_bookkeeping (env : ExecEnv) (s : EngineState) (taskId : String)
    (task : Task) (msg : String)
    (hfind : TaskRepository.findTaskById s.store taskId = some task)
    (hstate : task.execution_state ≠ "processing")
    (hrec : task.is_recurring = false)
    (hwork : env.workResult = some msg)
    (hmsg : msg ≠ "") :
    (TaskService.executeTask env s taskId).1 = .error (.taskExecutionError taskId msg) ∧
    (TaskRepository.findTaskById (TaskService.executeTask env s taskId).2.store taskId).map
        (fun t => t.execution_state) = some "failed" ∧
    (TaskRepository.findTaskById (TaskService.executeTask env s taskId).2.store taskId).map
        (fun t => t.execution_attempts) = some (task.execution_attempts + 1) ∧
    (TaskRepository.findTaskById (TaskService.executeTask env s taskId).2.store taskId).map
        (fun t => t.failure_reason) = some (some msg) ∧
    (TaskRepository.findTaskById (TaskService.executeTask env s taskId).2.store taskId).map
        (fun t => t.execution_duration_ms) =
      some (some (env.endTime - env.startTime)) ∧
    (TaskRepository.findTaskById (TaskService.executeTask env s taskId).2.store taskId).map
        (fun t => t.next_execution_at) = some task.next_execution_at ∧
    (TaskService.executeTask env s taskId).2.history = s.history ++
      [⟨taskId, "failure", env.startTime, env.endTime, env.endTime - env.startTime, some msg⟩] ∧
    (TaskService.executeTask env s taskId).2.webhookLog = s.webhookLog := by
  have hfind0 := hfind
  unfold TaskRepository.findTaskById at hfind0
  obtain ⟨r0, hsel, hfmt⟩ := Option.map_eq_some'.mp hfind0
  subst hfmt
  simp only [TaskService.executeTask, hfind, hwork, if_neg hstate,
    TaskRepository.updateTaskState, TaskRepository.logExecution]
  refine ⟨?_, ?_, ?_, ?_, ?_, ?_, ?_, ?_⟩ <;>
  first
  | trivial
  | (unfold TaskRepository.findTaskById
     rw [selectTaskRow_updateWhere, selectTaskRow_updateWhere, hsel]
     first
     | rfl
     | (show some (if msg = "" then r0.failure_reason else some msg) = some (some msg)
        rw [if_neg hmsg]))

/-- Claim C4, witness: the absorption at a concrete recurring task whose
delivery fails. -/
theorem C4_notification_failure_absorbed_witness :
    (∃ v, (TaskService.executeTask c4Env (engineWith sampleRecurringRow) "t1").1 = .ok v) ∧
    (TaskRepository.findTaskById
        (TaskService.executeTask c4Env (engineWith sampleRecurringRow) "t1").2.store "t1").map
        (fun t => t.execution_state) =
      some (if (formatTaskData sampleRecurringRow).is_recurring &&
          strOptTruthy (formatTaskData sampleRecurringRow).schedule_pattern then "queued"
        else "completed") ∧
    (TaskRepository.findTaskById
        (TaskService.executeTask c4Env (engineWith sampleRecurringRow) "t1").2.store "t1").map
        (fun t => t.failure_reason) = some (formatTaskData sampleRecurringRow).failure_reason ∧
    (TaskService.executeTask c4Env (engineWith sampleRecurringRow) "t1").2.history =
      (engineWith sampleRecurringRow).history ++
      [⟨"t1", "success", c4Env.startTime, c4Env.endTime,
        c4Env.endTime - c4Env.startTime, none⟩] ∧
    (TaskService.executeTask c4Env (engineWith sampleRecurringRow) "t1").2.webhookLog =
      (engineWith sampleRecurringRow).webhookLog ++ [⟨"t1", false⟩] ∧
    (TaskService.executeTask c4Env (engineWith sampleRecurringRow) "t1").2.store =
      (TaskService.executeTask { c4Env with webhookOutcome := true }
        (engineWith sampleRecurringRow) "t1").2.store :=
  C4_notification_failure_absorbed c4Env (engineWith sampleRecurringRow) "t1"
    (formatTaskData sampleRecurringRow) (by decide) (by decide) rfl rfl

/-- Claim C6, witness: the amended bookkeeping at a concrete first-ever failing
run (attempts end at 1). -/
theorem C6_failed_run_bookkeeping_witness :
    (TaskService.executeTask c6Env (engineWith sampleSimpleRow) "t1").1 =
      .error (.taskExecutionError "t1" "boom") ∧
    (TaskRepository.findTaskById
        (TaskService.executeTask c6Env (engineWith sampleSimpleRow) "t1").2.store "t1").map
        (fun t => t.execution_state) = some "failed" ∧
    (TaskRepository.findTaskById
        (TaskService.executeTask c6Env (engineWith sampleSimpleRow) "t1").2.store "t1").map
        (fun t => t.execution_attempts) =
      some ((formatTaskData sampleSimpleRow).execution_attempts + 1) ∧
    (TaskRepository.findTaskById
        (TaskService.executeTask c6Env (engineWith sampleSimpleRow) "t1").2.store "t1").map
        (fun t => t.failure_reason) = some (some "boom") ∧
    (TaskRepository.findTaskById
        (TaskService.executeTask c6Env (engineWith sampleSimpleRow) "t1").2.store "t1").map
        (fun t => t.execution_duration_ms) =
      some (some (c6Env.endTime - c6Env.startTime)) ∧
    (TaskRepository.findTaskById
        (TaskService.executeTask c6Env (engineWith sampleSimpleRow) "t1").2.store "t1").map
        (fun t => t.next_execution_at) =
      some (formatTaskData sampleSimpleRow).next_execution_at ∧
    (TaskService.executeTask c6Env (engineWith sampleSimpleRow) "t1").2.history =
      (engineWith sampleSimpleRow).history ++
      [⟨"t1", "failure", c6Env.startTime, c6Env.endTime,
        c6Env.endTime - c6Env.startTime, some "boom"⟩] ∧
    (TaskService.executeTask c6Env (engineWith sampleSimpleRow) "t1").2.webhookLog =
      (engineWith sampleSimpleRow).webhookLog :=
  C6_failed_run_bookkeeping c6Env (engineWith sampleSimpleRow) "t1"
    (formatTaskData sampleSimpleRow) "boom" (by decide) (by decide) (by decide) rfl
    (by decide)

set_option maxRecDepth 40000 in
/-- Claim C8.  `POST /tasks` with a 256-character label: the route mounts no
validator and `_validateTaskPayload` has no length check, so the wired
pipeline answers 201 and stores the 256-character label, though 256 > 255.
The last conjunct shows the unmounted middleware would have rejected exactly
this body with the 255-character validation error — the check exists but is
wired into no route. -/
theorem C8_long_label_accepted :
    (httpCreateTask longNameBody "id1" 0 []).1 = 201 ∧
    (selectTaskRow (httpCreateTask longNameBody "id1" 0 []).2 "id1").map
      (fun r => r.task_label.length) = some 256 ∧
    256 > 255 ∧
    RequestValidator.validateCreateTaskRequest longNameBody =
      .error (.validationError "taskName" "Must be 255 characters or less") := by
  decide

/-- Claim C7.  FIFO draining of the overflow queue: with the gate saturated and
the queue empty, submitting A then B queues them in arrival order; when one
running execution finishes (freeing exactly one slot), the `finally` block
starts A — not B — and leaves B at the head of the queue.  The final conjunct
states the absence of any reordering: every atomic segment of the scheduler
leaves the queue unchanged, removes its head, or appends to its tail — there
is no priority-based reordering. -/
theorem C7_fifo_overflow_queue (s : SchedState) (A B : String)
    (hq : s.taskQueue = []) (hsat : s.activeTasksCount = s.maxConcurrentTasks)
    (hpos : 0 < s.maxConcurrentTasks) :
    (schedRun [.tickSubmit A, .tickSubmit B, .finishTask] s).started = s.started ++ [A] ∧
    (schedRun [.tickSubmit A, .tickSubmit B, .finishTask] s).taskQueue = [B] ∧
    ∀ (l : SchedLabel) (s2 : SchedState),
      (schedStep l s2).taskQueue = s2.taskQueue ∨
      (schedStep l s2).taskQueue = s2.taskQueue.drop 1 ∨
      ∃ t, (schedStep l s2).taskQueue = s2.taskQueue ++ [t] := by
  have h1 : schedStep (.tickSubmit A) s = { s with taskQueue := [A] } := by
    simp only [schedStep]
    rw [if_pos (by omega : s.activeTasksCount ≥ s.maxConcurrentTasks), hq]
    rfl
  have h2 : schedStep (.tickSubmit B) { s with taskQueue := [A] } =
      { s with taskQueue := [A, B] } := by
    simp only [schedStep]
    rw [if_pos (by omega : s.activeTasksCount ≥ s.maxConcurrentTasks)]
    rfl
  have h3 : schedStep .finishTask { s with taskQueue := [A, B] } =
      { s with
        taskQueue := [B]
        activeTasksCount := s.activeTasksCount - 1 + 1
        started := s.started ++ [A] } := by
    simp only [schedStep]
    rw [if_neg (by omega : ¬ s.activeTasksCount = 0)]
  have hrun : schedRun [.tickSubmit A, .tickSubmit B, .finishTask] s =
      { s with
        taskQueue := [B]
        activeTasksCount := s.activeTasksCount - 1 + 1
        started := s.started ++ [A] } := by
    unfold schedRun
    simp only [List.foldl]
    rw [h1, h2, h3]
  refine ⟨by rw [hrun], by rw [hrun], ?_⟩
  intro l s2
  cases l with
  | tickSubmit t =>
    simp only [schedStep]
    by_cases h : s2.activeTasksCount ≥ s2.maxConcurrentTasks
    · rw [if_pos h]; exact Or.inr (Or.inr ⟨t, rfl⟩)
    · rw [if_neg h]; exact Or.inl rfl
  | manualCheck t =>
    simp only [schedStep]
    by_cases h : s2.activeTasksCount ≥ s2.maxConcurrentTasks
    · rw [if_pos h]; exact Or.inl rfl
    · rw [if_neg h]; exact Or.inl rfl
  | manualResume =>
    left
    simp only [schedStep]
    split <;> rfl
  | finishTask =>
    simp only [schedStep]
    by_cases h0 : s2.activeTasksCount = 0
    · rw [if_pos h0]; exact Or.inl rfl
    · rw [if_neg h0]
      rcases hq2 : s2.taskQueue with _ | ⟨x, xs⟩
      · exact Or.inl (by simp [hq2])
      · exact Or.inr (Or.inl (by simp [hq2]))
  | drainOne =>
    by_cases h : s2.activeTasksCount < s2.maxConcurrentTasks
    · rcases hq2 : s2.taskQueue with _ | ⟨x, xs⟩
      · exact Or.inl (by simp only [schedStep]; rw [if_pos h]; simp [hq2])
      · exact Or.inr (Or.inl (by simp only [schedStep]; rw [if_pos h]; simp [hq2]))
    · exact Or.inl (by simp only [schedStep]; rw [if_neg h])

/-- Claim C7, witness: the FIFO property at a concrete saturated gate. -/
theorem C7_fifo_overflow_queue_witness :
    (schedRun [.tickSubmit "a", .tickSubmit "b", .finishTask] c7Gate).started =
      c7Gate.started ++ ["a"] ∧
    (schedRun [.tickSubmit "a", .tickSubmit "b", .finishTask] c7Gate).taskQueue = ["b"] ∧
    ∀ (l : SchedLabel) (s2 : SchedState),
      (schedStep l s2).taskQueue = s2.taskQueue ∨
      (schedStep l s2).taskQueue = s2.taskQueue.drop 1 ∨
      ∃ t, (schedStep l s2).taskQueue = s2.taskQueue ++ [t] :=
  C7_fifo_overflow_queue c7Gate "a" "b" rfl rfl (by decide)

/-- Claim C9.  Every accepted creation request whose schedule pattern is
`*\/5 * * * *` stores `next_execution_at` equal to the creation-time reading
plus exactly five minutes (300000 ms). -/
theorem C9_five_minute_schedule (p : TaskPayload) (newId : String) (now : Int) (st : Store)
    (hpat : p.schedulePattern = some "*/5 * * * *")
    (hvalid : TaskService.validateTaskPayload p = .ok ())
    (hfresh : ∀ r ∈ st, r.task_id ≠ newId) :
    ∃ st2 res, TaskService.createTask p newId now st = .ok (st2, res) ∧
      (TaskRepository.findTaskById st2 newId).map (fun t => t.next_execution_at) =
        some (some (now + 5 * 60000)) := by
  have hcalc : TaskService.calculateNextExecution "*/5 * * * *" now =
      some (now + 5 * 60000) := by
    unfold TaskService.calculateNextExecution
    rw [if_pos (by decide : startsWithStarSlash "*/5 * * * *" = true)]
    rw [show jsParseInt (String.mk (removeFirstStarSlash
      (((jsSplitSpace "*/5 * * * *").headD "").data))) = some 5 from by decide]
  unfold TaskService.createTask
  rw [hvalid, hpat]
  refine ⟨_, _, rfl, ?_⟩
  unfold TaskRepository.findTaskById
  rw [selectTaskRow_append_fresh st _ newId hfresh rfl]
  simp only [Option.map_some', formatTaskData, insertRow]
  rw [show strOptTruthy (some "*/5 * * * *") = true from rfl]
  simp [hcalc]

/-- Claim C9, witness: the round trip at a concrete body, identifier and
instant. -/
theorem C9_five_minute_schedule_witness :
    ∃ st2 res, TaskService.createTask fiveMinuteBody "id7" 100 [] = .ok (st2, res) ∧
      (TaskRepository.findTaskById st2 "id7").map (fun t => t.next_execution_at) =
        some (some (100 + 5 * 60000)) :=
  C9_five_minute_schedule fiveMinuteBody "id7" 100 [] rfl (by decide) (by simp)

/-- All rows satisfy the empty filter object. -/
theorem rowMatchesFilters_default (r : TaskRow) : rowMatchesFilters {} r = true := by
  simp [rowMatchesFilters, strOptTruthy]

/-- Claim C10.  The store round-trips the payload: creating a task stores
`JSON.stringify` of the payload, and reading it back — through
`findTaskById`, or through any row `findAllTasks` returns for that id — parses
the text back into a value equal to the original payload. -/
theorem C10_payload_roundtrip (d : NewTaskData) (st : Store) (now : Int)
    (hfresh : ∀ r ∈ st, r.task_id ≠ d.task_id) :
    ((TaskRepository.createTask st d now).2.map fun t => t.payload_data) =
      some (some d.payload_data) ∧
    ∀ t ∈ TaskRepository.findAllTasks (TaskRepository.createTask st d now).1 {},
      t.task_id = d.task_id → t.payload_data = some d.payload_data := by
  constructor
  · show ((TaskRepository.findTaskById (st ++ [insertRow d now]) d.task_id).map
      fun t => t.payload_data) = some (some d.payload_data)
    unfold TaskRepository.findTaskById
    rw [selectTaskRow_append_fresh st _ d.task_id hfresh rfl]
    show some (jsonParse (jsonStringify d.payload_data)) = some (some d.payload_data)
    rw [jsonParse_stringify]
  · intro t ht hid
    unfold TaskRepository.findAllTasks at ht
    rw [show rowMatchesFilters {} = fun _ => true from funext rowMatchesFilters_default,
      List.filter_true] at ht
    obtain ⟨r, hr, hfmt⟩ := List.mem_map.mp ht
    have hr2 : r ∈ (TaskRepository.createTask st d now).1 := List.mem_mergeSort.mp hr
    have hrid : r.task_id = d.task_id := by
      rw [← hid, ← hfmt]
      rfl
    rcases List.mem_append.mp hr2 with hin | hin
    · exact absurd hrid (hfresh r hin)
    · have hrow : r = insertRow d now := by simpa using hin
      rw [← hfmt, hrow]
      show jsonParse (jsonStringify d.payload_data) = some d.payload_data
      exact jsonParse_stringify d.payload_data

/-- Claim C10, witness: the round trip at a concrete nested payload in an
empty store. -/
theorem C10_payload_roundtrip_witness :
    ((TaskRepository.createTask [] samplePayloadData 0).2.map fun t => t.payload_data) =
      some (some samplePayloadData.payload_data) ∧
    ∀ t ∈ TaskRepository.findAllTasks (TaskRepository.createTask [] samplePayloadData 0).1 {},
      t.task_id = samplePayloadData.task_id →
        t.payload_data = some samplePayloadData.payload_data :=
  C10_payload_roundtrip samplePayloadData [] 0 (by simp)

end TaskManager
